import Mathlib

set_option maxRecDepth 8000
set_option maxHeartbeats 1000000
set_option linter.unusedVariables false

namespace StudyAI

/-- Characters stripped by Python str.strip (ASCII whitespace subset). -/
def pyWs (c : Char) : Bool :=
  c == ' ' || c == '\t' || c == '\n' || c == '\r' || c == '\x0b' || c == '\x0c'

/-- Model of Python str.strip: drop leading and trailing whitespace. -/
def pyStrip (cs : List Char) : List Char :=
  ((cs.dropWhile pyWs).reverse.dropWhile pyWs).reverse

/-- Model of Python str.replace(pat, "") (all occurrences, scanned left to right). -/
def replaceAll (pat : List Char) : List Char → List Char
  | [] => []
  | c :: rest =>
    if h : pat ≠ [] ∧ pat.isPrefixOf (c :: rest) then
      replaceAll pat ((c :: rest).drop pat.length)
    else
      c :: replaceAll pat rest
termination_by cs => cs.length
decreasing_by
  · have hp : 0 < pat.length := List.length_pos.mpr h.1
    simp only [List.length_drop, List.length_cons]
    omega
  · simp only [List.length_cons]
    omega

/-- Model of Python str.split(sep) for a fixed separator (used with a non-empty one). -/
def splitOnSub (pat : List Char) : List Char → List (List Char)
  | [] => [[]]
  | c :: rest =>
    if h : pat ≠ [] ∧ pat.isPrefixOf (c :: rest) then
      [] :: splitOnSub pat ((c :: rest).drop pat.length)
    else
      (splitOnSub pat rest).modifyHead (c :: ·)
termination_by cs => cs.length
decreasing_by
  · have hp : 0 < pat.length := List.length_pos.mpr h.1
    simp only [List.length_drop, List.length_cons]
    omega
  · simp only [List.length_cons]
    omega

/-- Python str.split never returns an empty list of parts. -/
theorem splitOnSub_length_pos (pat : List Char) (cs : List Char) :
    0 < (splitOnSub pat cs).length := by
  induction cs using splitOnSub.induct pat with
  | case1 => simp [splitOnSub]
  | case2 c rest h ih =>
    rw [splitOnSub, dif_pos h]
    simp
  | case3 c rest h ih =>
    rw [splitOnSub, dif_neg h]
    simpa [List.length_modifyHead] using ih

/-- Continuation byte test for UTF-8 (0x80..0xBF). -/
def contOk (x : Nat) : Bool := decide (0x80 ≤ x ∧ x ≤ 0xBF)

/-- First-continuation range for a three-byte lead, per RFC 3629 (what CPython enforces). -/
def cont1Ok3 (b x : Nat) : Bool :=
  if b = 0xE0 then decide (0xA0 ≤ x ∧ x ≤ 0xBF)
  else if b = 0xED then decide (0x80 ≤ x ∧ x ≤ 0x9F)
  else contOk x

/-- First-continuation range for a four-byte lead, per RFC 3629 (what CPython enforces). -/
def cont1Ok4 (b x : Nat) : Bool :=
  if b = 0xF0 then decide (0x90 ≤ x ∧ x ≤ 0xBF)
  else if b = 0xF4 then decide (0x80 ≤ x ∧ x ≤ 0x8F)
  else contOk x

/-- One step of UTF-8 decoding: emit a character, skip an invalid maximal subpart,
stop on a truncated final sequence, or finish. Shared by the strict decoder and the
errors="ignore" decoder so that the two visibly agree branch by branch. -/
inductive Utf8Step where
  | emit (c : Char) (rest : List Nat)
  | skip (rest : List Nat)
  | truncated
  | done

/-- Single decoding step on a byte list, following the UTF-8 state machine CPython uses
(invalid data skips the maximal subpart of a valid sequence). -/
def utf8Step : List Nat → Utf8Step
  | [] => .done
  | b :: rest =>
    if b < 0x80 then .emit (Char.ofNat b) rest
    else if 0xC2 ≤ b ∧ b ≤ 0xDF then
      match rest with
      | [] => .truncated
      | b1 :: rest1 =>
        if contOk b1 then .emit (Char.ofNat ((b - 0xC0) * 0x40 + (b1 - 0x80))) rest1
        else .skip (b1 :: rest1)
    else if 0xE0 ≤ b ∧ b ≤ 0xEF then
      match rest with
      | [] => .truncated
      | [b1] => if cont1Ok3 b b1 then .truncated else .skip [b1]
      | b1 :: b2 :: rest2 =>
        if cont1Ok3 b b1 then
          if contOk b2 then
            .emit (Char.ofNat ((b - 0xE0) * 0x1000 + (b1 - 0x80) * 0x40 + (b2 - 0x80))) rest2
          else .skip (b2 :: rest2)
        else .skip (b1 :: b2 :: rest2)
    else if 0xF0 ≤ b ∧ b ≤ 0xF4 then
      match rest with
      | [] => .truncated
      | [b1] => if cont1Ok4 b b1 then .truncated else .skip [b1]
      | [b1, b2] =>
        if cont1Ok4 b b1 then
          (if contOk b2 then .truncated else .skip [b2])
        else .skip [b1, b2]
      | b1 :: b2 :: b3 :: rest3 =>
        if cont1Ok4 b b1 then
          if contOk b2 then
            if contOk b3 then
              .emit (Char.ofNat ((b - 0xF0) * 0x40000 + (b1 - 0x80) * 0x1000 +
                (b2 - 0x80) * 0x40 + (b3 - 0x80))) rest3
            else .skip (b3 :: rest3)
          else .skip (b2 :: b3 :: rest3)
        else .skip (b1 :: b2 :: b3 :: rest3)
    else .skip rest

/-- A decoding step that emits a character consumes at least one byte. -/
theorem utf8Step_emit_length : ∀ (bs : List Nat) (c : Char) (r : List Nat),
    utf8Step bs = .emit c r → r.length < bs.length := by
  intro bs c r h
  rcases bs with _ | ⟨b, _ | ⟨b1, _ | ⟨b2, _ | ⟨b3, rest3⟩⟩⟩⟩
  all_goals simp only [utf8Step] at h
  all_goals repeat' split at h
  all_goals cases h
  all_goals simp only [List.length_cons, List.length_nil]
  all_goals omega

/-- A decoding step that skips invalid data consumes at least one byte. -/
theorem utf8Step_skip_length : ∀ (bs : List Nat) (r : List Nat),
    utf8Step bs = .skip r → r.length < bs.length := by
  intro bs r h
  rcases bs with _ | ⟨b, _ | ⟨b1, _ | ⟨b2, _ | ⟨b3, rest3⟩⟩⟩⟩
  all_goals simp only [utf8Step] at h
  all_goals repeat' split at h
  all_goals cases h
  all_goals simp only [List.length_cons, List.length_nil]
  all_goals omega

/-- Fuel-driven loop of the errors="ignore" decoder: invalid data is skipped,
a truncated final sequence is dropped. -/
def decodeLoop : Nat → List Nat → List Char
  | 0, _ => []
  | fuel + 1, bs =>
    match utf8Step bs with
    | .done => []
    | .truncated => []
    | .emit c r => c :: decodeLoop fuel r
    | .skip r => decodeLoop fuel r

/-- Fuel-driven loop of the strict decoder: any invalid or truncated data fails. -/
def strictLoop : Nat → List Nat → Option (List Char)
  | 0, _ => none
  | fuel + 1, bs =>
    match utf8Step bs with
    | .done => some []
    | .truncated => none
    | .emit c r => (strictLoop fuel r).map (c :: ·)
    | .skip _ => none

/-- Model of Python bytes.decode("utf-8", errors="ignore"). -/
def decodeUtf8Ignore (bs : List Nat) : List Char := decodeLoop (bs.length + 1) bs

/-- Model of Python bytes.decode("utf-8") with strict error handling: some
exactly when the byte list is well-formed UTF-8. -/
def decodeUtf8Strict (bs : List Nat) : Option (List Char) := strictLoop (bs.length + 1) bs

theorem decodeLoop_fuel_irrel : ∀ (f1 f2 : Nat) (bs : List Nat),
    bs.length ≤ f1 → bs.length ≤ f2 → decodeLoop f1 bs = decodeLoop f2 bs := by
  intro f1
  induction f1 with
  | zero =>
    intro f2 bs h1 _
    have : bs = [] := List.length_eq_zero.mp (Nat.le_zero.mp h1)
    subst this
    cases f2 <;> simp [decodeLoop, utf8Step]
  | succ f ih =>
    intro f2 bs h1 h2
    cases f2 with
    | zero =>
      have : bs = [] := List.length_eq_zero.mp (Nat.le_zero.mp h2)
      subst this
      simp [decodeLoop, utf8Step]
    | succ f2' =>
      cases hstep : utf8Step bs with
      | done => simp [decodeLoop, hstep]
      | truncated => simp [decodeLoop, hstep]
      | emit c r =>
        have hr := utf8Step_emit_length _ _ _ hstep
        simp only [decodeLoop, hstep]
        rw [ih f2' r (by omega) (by omega)]
      | skip r =>
        have hr := utf8Step_skip_length _ _ hstep
        simp only [decodeLoop, hstep]
        rw [ih f2' r (by omega) (by omega)]

/-- On well-formed UTF-8 input the ignore-errors decoder agrees with strict decoding. -/
theorem strictLoop_agrees : ∀ (fuel : Nat) (bs : List Nat) (s : List Char),
    strictLoop fuel bs = some s → decodeLoop fuel bs = s := by
  intro fuel
  induction fuel with
  | zero => intro bs s h; simp [strictLoop] at h
  | succ f ih =>
    intro bs s h
    cases hstep : utf8Step bs with
    | done =>
      simp only [strictLoop, hstep, Option.some_inj] at h
      simp [decodeLoop, hstep, h]
    | truncated =>
      simp only [strictLoop, hstep] at h
      exact Option.noConfusion h
    | emit c r =>
      simp only [strictLoop, hstep] at h
      rw [Option.map_eq_some'] at h
      obtain ⟨s', hs', rfl⟩ := h
      simp only [decodeLoop, hstep]
      rw [ih r s' hs']
    | skip r =>
      simp only [strictLoop, hstep] at h
      exact Option.noConfusion h

/-- Strict success implies the ignore-errors decoder returns the same text. -/
theorem decodeUtf8Strict_agrees {bs : List Nat} {s : List Char}
    (h : decodeUtf8Strict bs = some s) : decodeUtf8Ignore bs = s :=
  strictLoop_agrees (bs.length + 1) bs s h

/-- The decoder never produces more characters than input bytes. -/
theorem decodeLoop_length_le : ∀ (fuel : Nat) (bs : List Nat),
    bs.length ≤ fuel → (decodeLoop fuel bs).length ≤ bs.length := by
  intro fuel
  induction fuel with
  | zero => intro bs h; simp [decodeLoop]
  | succ f ih =>
    intro bs h
    cases hstep : utf8Step bs with
    | done => simp [decodeLoop, hstep]
    | truncated => simp [decodeLoop, hstep]
    | emit c r =>
      have hr := utf8Step_emit_length _ _ _ hstep
      have := ih r (by omega)
      simp only [decodeLoop, hstep, List.length_cons]
      omega
    | skip r =>
      have hr := utf8Step_skip_length _ _ hstep
      have := ih r (by omega)
      simp only [decodeLoop, hstep]
      omega

theorem decodeUtf8Ignore_length_le (bs : List Nat) :
    (decodeUtf8Ignore bs).length ≤ bs.length :=
  decodeLoop_length_le (bs.length + 1) bs (by omega)

/-- A run of 0xFF bytes (invalid UTF-8 lead bytes) decodes to nothing under
errors="ignore". -/
theorem decodeLoop_replicate_255 : ∀ (fuel n : Nat), n ≤ fuel →
    decodeLoop fuel (List.replicate n 255) = [] := by
  intro fuel
  induction fuel with
  | zero => intro n h; simp [decodeLoop]
  | succ f ih =>
    intro n h
    cases n with
    | zero => simp [decodeLoop, utf8Step]
    | succ m =>
      have hstep : utf8Step (List.replicate (m + 1) 255) = .skip (List.replicate m 255) := by
        simp [List.replicate, utf8Step]
      simp only [decodeLoop, hstep]
      exact ih m (by omega)

theorem decodeUtf8Ignore_replicate_255 (n : Nat) :
    decodeUtf8Ignore (List.replicate n 255) = [] := by
  unfold decodeUtf8Ignore
  exact decodeLoop_replicate_255 _ n (by simp only [List.length_replicate]; omega)


/-- JSON values as recovered by the pipeline from model output.  Numbers keep
their source spelling, which the pipeline never inspects. -/
inductive Json where
  | null
  | bool (b : Bool)
  | num (raw : List Char)
  | str (s : List Char)
  | arr (elems : List Json)
  | obj (fields : List (List Char × Json))

/-- JSON whitespace accepted between tokens by json.loads. -/
def jsonWs (c : Char) : Bool := c == ' ' || c == '\t' || c == '\n' || c == '\r'

def skipWs (cs : List Char) : List Char := cs.dropWhile jsonWs

/-- Single-character escapes accepted inside JSON strings. -/
def escChar (e : Char) : Option Char :=
  if e = '"' then some '"'
  else if e = '\\' then some '\\'
  else if e = '/' then some '/'
  else if e = 'b' then some '\x08'
  else if e = 'f' then some '\x0c'
  else if e = 'n' then some '\n'
  else if e = 'r' then some '\r'
  else if e = 't' then some '\t'
  else none

def hexVal (c : Char) : Option Nat :=
  if '0' ≤ c ∧ c ≤ '9' then some (c.toNat - 48)
  else if 'a' ≤ c ∧ c ≤ 'f' then some (c.toNat - 87)
  else if 'A' ≤ c ∧ c ≤ 'F' then some (c.toNat - 55)
  else none

/-- Parse the body of a JSON string after the opening quote; returns the decoded
characters and the remainder after the closing quote.  Raw control characters are
rejected, as json.loads does in strict mode. -/
def parseStringBody : List Char → Option (List Char × List Char)
  | [] => none
  | c :: rest =>
    if c = '"' then some ([], rest)
    else if c = '\\' then
      match rest with
      | [] => none
      | e :: rest2 =>
        match escChar e with
        | some ec => (parseStringBody rest2).map (fun p => (ec :: p.1, p.2))
        | none =>
          if e = 'u' then
            match rest2 with
            | h1 :: h2 :: h3 :: h4 :: rest6 =>
              match hexVal h1, hexVal h2, hexVal h3, hexVal h4 with
              | some v1, some v2, some v3, some v4 =>
                let n := ((v1 * 16 + v2) * 16 + v3) * 16 + v4
                if 0xD800 ≤ n ∧ n ≤ 0xDFFF then none
                else (parseStringBody rest6).map (fun p => (Char.ofNat n :: p.1, p.2))
              | _, _, _, _ => none
            | _ => none
          else none
    else if c.toNat < 0x20 then none
    else (parseStringBody rest).map (fun p => (c :: p.1, p.2))

/-- Parse an optional JSON exponent part, returning consumed characters and rest. -/
def parseExpPart (cs : List Char) : Option (List Char × List Char) :=
  match cs with
  | c :: r =>
    if c = 'e' ∨ c = 'E' then
      let sr := match r with
        | d :: rr => if d = '+' ∨ d = '-' then ([d], rr) else (([] : List Char), r)
        | [] => (([] : List Char), r)
      let ds := sr.2.takeWhile Char.isDigit
      if ds.isEmpty then none
      else some (c :: sr.1 ++ ds, sr.2.dropWhile Char.isDigit)
    else some ([], cs)
  | [] => some ([], cs)

/-- Parse an optional JSON fraction part. -/
def parseFracPart (cs : List Char) : Option (List Char × List Char) :=
  match cs with
  | c :: r =>
    if c = '.' then
      let ds := r.takeWhile Char.isDigit
      if ds.isEmpty then none
      else some (c :: ds, r.dropWhile Char.isDigit)
    else some ([], cs)
  | [] => some ([], cs)

/-- Parse a JSON number per the grammar json.loads enforces (no leading zeros,
no bare sign); the spelling is kept verbatim. -/
def parseNumber (cs : List Char) : Option (Json × List Char) :=
  let sr := match cs with
    | '-' :: r => (['-'], r)
    | _ => (([] : List Char), cs)
  let ipart := sr.2.takeWhile Char.isDigit
  let rest1 := sr.2.dropWhile Char.isDigit
  if ipart.isEmpty then none
  else if 1 < ipart.length ∧ ipart.head? = some '0' then none
  else
    match parseFracPart rest1 with
    | none => none
    | some (fpart, rest2) =>
      match parseExpPart rest2 with
      | none => none
      | some (epart, rest3) => some (Json.num (sr.1 ++ ipart ++ fpart ++ epart), rest3)

mutual

/-- Parse one JSON value; the fuel bounds recursion depth and the top-level call
supplies enough for any input. -/
def parseValue : Nat → List Char → Option (Json × List Char)
  | 0, _ => none
  | fuel + 1, cs =>
    match skipWs cs with
    | [] => none
    | c :: rest =>
      if c = '"' then (parseStringBody rest).map (fun p => (Json.str p.1, p.2))
      else if c = '[' then
        match skipWs rest with
        | ']' :: r2 => some (Json.arr [], r2)
        | cs2 => (parseElems fuel cs2).map (fun p => (Json.arr p.1, p.2))
      else if c = '\x7b' then
        match skipWs rest with
        | '\x7d' :: r2 => some (Json.obj [], r2)
        | cs2 => (parseMembers fuel cs2).map (fun p => (Json.obj p.1, p.2))
      else if ("true".toList).isPrefixOf (c :: rest) then
        some (Json.bool true, (c :: rest).drop 4)
      else if ("false".toList).isPrefixOf (c :: rest) then
        some (Json.bool false, (c :: rest).drop 5)
      else if ("null".toList).isPrefixOf (c :: rest) then
        some (Json.null, (c :: rest).drop 4)
      else if ("NaN".toList).isPrefixOf (c :: rest) then
        some (Json.num ("NaN".toList), (c :: rest).drop 3)
      else if ("Infinity".toList).isPrefixOf (c :: rest) then
        some (Json.num ("Infinity".toList), (c :: rest).drop 8)
      else if ("-Infinity".toList).isPrefixOf (c :: rest) then
        some (Json.num ("-Infinity".toList), (c :: rest).drop 9)
      else if c = '-' ∨ c.isDigit then parseNumber (c :: rest)
      else none

/-- Parse the elements of a non-empty JSON array, including the closing bracket. -/
def parseElems : Nat → List Char → Option (List Json × List Char)
  | 0, _ => none
  | fuel + 1, cs =>
    match parseValue fuel cs with
    | none => none
    | some (v, r) =>
      match skipWs r with
      | ',' :: r2 => (parseElems fuel r2).map (fun p => (v :: p.1, p.2))
      | ']' :: r2 => some ([v], r2)
      | _ => none

/-- Parse the members of a non-empty JSON object, including the closing brace. -/
def parseMembers : Nat → List Char → Option (List (List Char × Json) × List Char)
  | 0, _ => none
  | fuel + 1, cs =>
    match skipWs cs with
    | '"' :: r =>
      match parseStringBody r with
      | none => none
      | some (k, r2) =>
        match skipWs r2 with
        | ':' :: r3 =>
          match parseValue fuel r3 with
          | none => none
          | some (v, r4) =>
            match skipWs r4 with
            | ',' :: r5 => (parseMembers fuel r5).map (fun p => ((k, v) :: p.1, p.2))
            | '\x7d' :: r5 => some ([(k, v)], r5)
            | _ => none
        | _ => none
    | _ => none

end

/-- Model of Python json.loads: parse one JSON document, allowing only trailing
whitespace after it; none models json.JSONDecodeError being raised. -/
def jsonLoads (cs : List Char) : Option Json :=
  match parseValue (2 * cs.length + 2) cs with
  | some (v, rest) => if (skipWs rest).isEmpty then some v else none
  | none => none

/-- Allowed upload extensions (source constant ALLOWED_EXTENSIONS). -/
def ALLOWED_EXTENSIONS : List (List Char) := ["pdf".toList, "txt".toList]

/-- Substring after the last dot, modeling filename.rsplit(".", 1)[1] for a name
containing a dot. -/
def extAfterLastDot (name : List Char) : List Char :=
  (name.reverse.takeWhile (fun c => c != '.')).reverse

/-- Lower-cased declared extension. -/
def lowerExt (name : List Char) : List Char := (extAfterLastDot name).map Char.toLower

/-- Source allowed_file: the name contains a dot and its lower-cased extension is
pdf or txt.  The "." test short-circuits, so the indexing never runs here. -/
def allowed_file (filename : List Char) : Bool :=
  filename.contains '.' && ALLOWED_EXTENSIONS.contains (lowerExt filename)

/-- Outcome of handing the uploaded bytes to PyPDF2, abstracted: the library can
be missing (ImportError), reader construction can raise a structural error, or it
yields a sequence of pages.  A page is none when its extract_text raised or
some of its text otherwise (the empty list models a falsy empty page text). -/
inductive PdfParse where
  | libMissing
  | structuralError
  | pages (ps : List (Option (List Char)))

/-- An uploaded file: werkzeug FileStorage restricted to what the pipeline reads.
The txt path reads the raw bytes; the pdf path reads the PyPDF2 view of them. -/
structure PyFile where
  filename : List Char
  bytes : List Nat
  pdf : PdfParse

/-- Python exception escaping the extractor: only the extension-splitting line
sits outside the try blocks, and it raises IndexError when the name has no dot. -/
inductive PyErr where
  | indexError

def pyErrStr : PyErr → List Char
  | .indexError => "list index out of range".toList

/-- Per-file byte cap for text files (5 MB). -/
def TXT_CAP : Nat := 5 * 1024 * 1024

/-- Source txt branch: truncate the raw bytes to 5 MB when larger, then decode
them as UTF-8 ignoring undecodable sequences. -/
def txtExtract (bs : List Nat) : List Char :=
  decodeUtf8Ignore (if bs.length > TXT_CAP then bs.take TXT_CAP else bs)

def PDF_PAGE_CAP : Nat := 100

def PDF_CHAR_CAP : Nat := 50000

def pdfTruncNote : List Char := "\n[Content truncated due to size]".toList

/-- Source pdf page loop: append each page text plus a newline, swallow pages
that raised, and stop with a truncation marker once the accumulated text
exceeds 50,000 characters. -/
def pdfLoop : List (Option (List Char)) → List Char → List Char
  | [], text => text
  | p :: rest, text =>
    match p with
    | none => pdfLoop rest text
    | some pt =>
      let t2 := if pt.isEmpty then text else text ++ pt ++ ['\n']
      if t2.length > PDF_CHAR_CAP then t2.take PDF_CHAR_CAP ++ pdfTruncNote
      else pdfLoop rest t2

/-- Note appended when a PDF has more pages than the cap. -/
def pdfNote (total processed : Nat) : List Char :=
  ("\n[Note: PDF has ".toList) ++ Nat.toDigits 10 total ++
    (" pages, processed first ".toList) ++ Nat.toDigits 10 processed ++ (" pages]".toList)

def pdfLibMissingMsg : List Char :=
  "[PDF file uploaded but PyPDF2 library not installed for text extraction.]".toList

/-- Source pdf branch body given a successfully constructed reader: process the
first min(total, 100) pages, append the page-count note when pages were cut,
and return None when the result is empty or whitespace-only. -/
def pdfExtract (ps : List (Option (List Char))) : Option (List Char) :=
  let total := ps.length
  let toProcess := min total PDF_PAGE_CAP
  let text := pdfLoop (ps.take toProcess) []
  let text2 := if toProcess < total then text ++ pdfNote total toProcess else text
  if (pyStrip text2).isEmpty then none else some text2

/-- Source extract_text_from_file.  The extension split (filename.rsplit) sits
before the try blocks and raises when the name has no dot; every other failure
is caught inside and becomes None.  The decode step with errors="ignore" cannot
raise, so the txt branch always returns text here. -/
def extract_text_from_file (f : PyFile) : Except PyErr (Option (List Char)) :=
  if f.filename.contains '.' then
    let extension := lowerExt f.filename
    if extension = ("txt".toList) then .ok (some (txtExtract f.bytes))
    else if extension = ("pdf".toList) then
      match f.pdf with
      | .libMissing => .ok (some pdfLibMissingMsg)
      | .structuralError => .ok none
      | .pages ps => .ok (pdfExtract ps)
    else .ok none
  else .error .indexError

/-- Accumulator of the per-file loop in process_files. -/
structure AggState where
  combined : List Char
  processed : List (List Char)
  errors : List (List Char)

/-- Filename sanitization is an external collaborator (werkzeug secure_filename),
outside the core per the spec scope; modeled as the identity, which no claim here
depends on. -/
def secure_filename (name : List Char) : List Char := name

def contentHeader (name : List Char) : List Char :=
  ("\n\n--- Content from ".toList) ++ name ++ (" ---\n\n".toList)

def couldNotExtractEntry (name : List Char) : List Char :=
  name ++ (": Could not extract text".toList)

def unsupportedEntry (name : List Char) : List Char :=
  name ++ (": File type not supported. Only PDF and TXT are supported.".toList)

/-- One iteration of the per-file loop in process_files: extract, then either
append the labeled content and record the name, or record a per-file error.
A falsy FileStorage (empty name) contributes nothing at all. -/
def processOne (st : AggState) (f : PyFile) : AggState :=
  if f.filename ≠ [] ∧ allowed_file f.filename then
    let filename := secure_filename f.filename
    match extract_text_from_file f with
    | .ok (some t) =>
      if t ≠ [] then
        ⟨st.combined ++ contentHeader filename ++ t, st.processed ++ [filename], st.errors⟩
      else ⟨st.combined, st.processed, st.errors ++ [couldNotExtractEntry filename]⟩
    | .ok none => ⟨st.combined, st.processed, st.errors ++ [couldNotExtractEntry filename]⟩
    | .error e =>
      ⟨st.combined, st.processed, st.errors ++ [filename ++ (": ".toList) ++ pyErrStr e]⟩
  else
    if f.filename ≠ [] then
      ⟨st.combined, st.processed, st.errors ++ [unsupportedEntry f.filename]⟩
    else st

/-- The per-file loop of process_files over the uploaded files in order. -/
def processLoop (files : List PyFile) : AggState :=
  files.foldl processOne ⟨[], [], []⟩

/-- Composite message used when the assembled corpus is empty or whitespace. -/
def corpusErrorMsg (errors : List (List Char)) : List Char :=
  if errors.isEmpty then ("Could not extract text from files.".toList)
  else ("Could not extract text from files.".toList) ++ (" ".toList) ++
    List.intercalate (" ".toList) errors

/-- Global corpus ceiling before the model calls. -/
def API_CHAR_CAP : Nat := 8000

def apiTruncMarker : List Char := "...\n[Content truncated for processing]".toList

/-- Source truncation of the combined text before prompt building: applied once,
to the fully assembled corpus. -/
def truncateForApi (t : List Char) : List Char :=
  if t.length > API_CHAR_CAP then t.take API_CHAR_CAP ++ apiTruncMarker else t

def explanationPromptPre : List Char :=
  ("You are an educational AI assistant. Analyze the following study material and create a comprehensive, easy-to-understand explanation.\n\nStudy Material:\n".toList)

def explanationPromptPost : List Char :=
  ("\n\nPlease provide:\n1. A clear topic/title for this material\n2. A detailed explanation broken into 3-5 paragraphs that summarizes the key concepts, main ideas, and important information in an educational and easy-to-understand manner.\n\nFormat your response as JSON with this structure:\n\x7b\n  \"topic\": \"Topic Title Here\",\n  \"content\": [\n    \"First paragraph of explanation...\",\n    \"Second paragraph...\",\n    \"Third paragraph...\",\n    \"Fourth paragraph...\",\n    \"Fifth paragraph...\"\n  ]\n\x7d\n\nOnly return the JSON, no additional text.".toList)

def explanationPrompt (corpus : List Char) : List Char :=
  explanationPromptPre ++ corpus ++ explanationPromptPost

def quizPromptPre : List Char :=
  ("Based on this study material, create 3-5 multiple-choice questions that test understanding of the most important concepts.\n\nStudy Material:\n".toList)

def quizPromptPost : List Char :=
  ("\n\nCreate questions with:\n- Clear, concise questions\n- 4 answer options labeled A, B, C, D for each question\n- One correct answer per question\n\nFormat your response as JSON array:\n[\n  \x7b\n    \"question\": \"Question text here?\",\n    \"options\": [\n      \"A) First option\",\n      \"B) Second option\",\n      \"C) Third option\",\n      \"D) Fourth option\"\n    ],\n    \"correctAnswer\": \"B\"\n  \x7d,\n  \x7b\n    \"question\": \"Another question?\",\n    \"options\": [\"A) Option A\", \"B) Option B\", \"C) Option C\", \"D) Option D\"],\n    \"correctAnswer\": \"A\"\n  \x7d\n]\n\nOnly return the JSON array, no additional text.".toList)

def quizPrompt (corpus : List Char) : List Char :=
  quizPromptPre ++ corpus ++ quizPromptPost

/-- Source call_openai_api with the network client abstracted into `complete`
(absent on any transport failure): an empty or whitespace-only prompt skips the
call and returns None. -/
def call_openai_api (complete : List Char → Option (List Char))
    (prompt : List Char) : Option (List Char) :=
  if (pyStrip prompt).isEmpty then none else complete prompt

/-- Source fence cleanup applied to raw model output before json.loads: strip,
remove every occurrence of the fence markers when the text starts with one,
strip again. -/
def cleanFences (raw : List Char) : List Char :=
  let t := pyStrip raw
  if ("```json".toList).isPrefixOf t then
    pyStrip (replaceAll ("```".toList) (replaceAll ("```json".toList) t))
  else if ("```".toList).isPrefixOf t then
    pyStrip (replaceAll ("```".toList) t)
  else t

/-- Fallback paragraphs for the explanation: first five blank-line-separated
blocks of the cleaned text, or a fixed sentence when the text is empty. -/
def explanationFallbackParagraphs (t : List Char) : List Json :=
  if t.isEmpty then [Json.str ("Unable to generate explanation.".toList)]
  else ((splitOnSub ("\n\n".toList) t).take 5).map Json.str

/-- Source explanation normalization: clean fences, then json.loads; on success
the parsed value is used as-is, on failure a fallback document is synthesized. -/
def normalizeExplanation (raw : List Char) : Json :=
  let t := cleanFences raw
  match jsonLoads t with
  | some j => j
  | none =>
    Json.obj [("topic".toList, Json.str ("Study Material Analysis".toList)),
      ("content".toList, Json.arr (explanationFallbackParagraphs t))]

/-- The fixed fallback quiz question of the source. -/
def fallbackQuizQuestion : Json :=
  Json.obj [("question".toList, Json.str ("What is the main topic of the study material?".toList)),
    ("options".toList, Json.arr [Json.str ("A) Option A".toList), Json.str ("B) Option B".toList),
      Json.str ("C) Option C".toList), Json.str ("D) Option D".toList)]),
    ("correctAnswer".toList, Json.str ("B".toList))]

def fallbackQuiz : List Json := [fallbackQuizQuestion]

def hasKey (fields : List (List Char × Json)) (k : List Char) : Bool :=
  fields.any (fun p => p.1 == k)

/-- Source per-candidate check: isinstance(q, dict) and the three keys present. -/
def isRecordWithFields (j : Json) : Bool :=
  match j with
  | Json.obj fields =>
    hasKey fields ("question".toList) && hasKey fields ("options".toList) &&
      hasKey fields ("correctAnswer".toList)
  | _ => false

/-- Source quiz validation: keep candidates passing the field check; when none
remain the raised ValueError lands in the fallback branch. -/
def validateQuiz (candidates : List Json) : List Json :=
  let valid := candidates.filter isRecordWithFields
  if valid.isEmpty then fallbackQuiz else valid

/-- Source wrapping of a non-array parse result into a one-element list. -/
def toQuizArray (j : Json) : List Json :=
  match j with
  | Json.arr xs => xs
  | _ => [j]

/-- Source quiz stage on raw model output: clean fences, json.loads, wrap, then
validate; a parse failure lands in the same fallback branch as an empty
validated set. -/
def quizStage (raw : List Char) : List Json :=
  let t := cleanFences raw
  match jsonLoads t with
  | some j => validateQuiz (toQuizArray j)
  | none => fallbackQuiz

/-- Source shaping of the explanation for the response payload: a dict is
wrapped in a singleton list, everything else passes through. -/
def explanationForStorage (e : Json) : Json :=
  match e with
  | Json.obj fs => Json.arr [Json.obj fs]
  | other => other

/-- Terminal result of the process_files endpoint: an error payload with an HTTP
status, or the success payload. -/
inductive PipelineResult where
  | failed (msg : List Char) (code : Nat)
  | success (explanation : Json) (quiz : List Json) (files_processed : List (List Char))

def noFilesProvidedMsg : List Char := "No files provided".toList

def noFilesSelectedMsg : List Char := "No files selected".toList

def explFailMsg : List Char := "Failed to generate explanation. Please try again.".toList

def quizFailMsg : List Char := "Failed to generate quiz. Please try again.".toList

/-- Source pipeline after the two input gates: extraction loop, empty-corpus
check, corpus truncation, then the two model stages. -/
def pipelineBody (complete : List Char → Option (List Char))
    (files : List PyFile) : PipelineResult :=
  let st := processLoop files
  if (pyStrip st.combined).isEmpty then .failed (corpusErrorMsg st.errors) 400
  else
    let corpus := truncateForApi st.combined
    match call_openai_api complete (explanationPrompt corpus) with
    | none => .failed explFailMsg 500
    | some etext =>
      if etext.isEmpty then .failed explFailMsg 500
      else
        let edata := normalizeExplanation etext
        match call_openai_api complete (quizPrompt corpus) with
        | none => .failed quizFailMsg 500
        | some qtext =>
          if qtext.isEmpty then .failed quizFailMsg 500
          else .success (explanationForStorage edata) (quizStage qtext) st.processed

/-- Source process_files route: the files field may be absent; present files go
through the first-file name gate, then the pipeline body. -/
def process_files (complete : List Char → Option (List Char))
    (filesField : Option (List PyFile)) : PipelineResult :=
  match filesField with
  | none => .failed noFilesProvidedMsg 400
  | some files =>
    match files with
    | [] => .failed noFilesSelectedMsg 400
    | f0 :: _ =>
      if f0.filename.isEmpty then .failed noFilesSelectedMsg 400
      else pipelineBody complete files

theorem corpusErrorMsg_head (errors : List (List Char)) :
    (corpusErrorMsg errors).head? = some 'C' := by
  unfold corpusErrorMsg
  split <;> rfl

theorem mem_dropWhile_of_not (p : Char → Bool) :
    ∀ (l : List Char) (a : Char), a ∈ l → p a = false → a ∈ l.dropWhile p := by
  intro l
  induction l with
  | nil => intro a ha _; cases ha
  | cons x xs ih =>
    intro a ha hpa
    by_cases hx : p x = true
    · rw [List.dropWhile_cons_of_pos hx]
      cases List.mem_cons.mp ha with
      | inl he => rw [he] at hpa; rw [hpa] at hx; cases hx
      | inr hm => exact ih a hm hpa
    · rw [List.dropWhile_cons_of_neg hx]
      exact ha

theorem pyStrip_ne_nil_of_mem {cs : List Char} {a : Char}
    (ha : a ∈ cs) (hws : pyWs a = false) : pyStrip cs ≠ [] := by
  unfold pyStrip
  intro h
  rw [List.reverse_eq_nil_iff] at h
  have h1 : a ∈ cs.dropWhile pyWs := mem_dropWhile_of_not pyWs cs a ha hws
  have h2 : a ∈ (cs.dropWhile pyWs).reverse := List.mem_reverse.mpr h1
  have h3 : a ∈ (cs.dropWhile pyWs).reverse.dropWhile pyWs :=
    mem_dropWhile_of_not pyWs _ a h2 hws
  rw [h] at h3
  cases h3

/-- C6: the corpus ceiling is applied exactly once, after full multi-file
assembly (pipelineBody truncates processLoop output as a whole): a corpus of at
most 8000 characters is unchanged, and a longer one becomes its first 8000
characters followed by the truncation marker, so its total length is 8000 plus
the marker length and it ends with the marker. -/
theorem C6_corpus_truncation :
    (∀ t : List Char, t.length ≤ 8000 → truncateForApi t = t) ∧
    (∀ t : List Char, 8000 < t.length →
      truncateForApi t = t.take 8000 ++ apiTruncMarker ∧
      (truncateForApi t).length = 8000 + apiTruncMarker.length ∧
      apiTruncMarker <:+ truncateForApi t) := by
  constructor
  · intro t ht
    unfold truncateForApi
    rw [if_neg (by simp only [API_CHAR_CAP]; omega)]
  · intro t ht
    have heq : truncateForApi t = t.take 8000 ++ apiTruncMarker := by
      unfold truncateForApi
      rw [if_pos (by simp only [API_CHAR_CAP]; omega)]
      rfl
    refine ⟨heq, ?_, ?_⟩
    · rw [heq, List.length_append, List.length_take]
      omega
    · rw [heq]
      exact ⟨t.take 8000, rfl⟩

theorem C6_corpus_truncation_witness :
    truncateForApi (List.replicate 42 'a') = List.replicate 42 'a' ∧
    (truncateForApi (List.replicate 8001 'a')).length = 8000 + apiTruncMarker.length :=
  ⟨C6_corpus_truncation.1 _ (by simp only [List.length_replicate]; omega),
   (C6_corpus_truncation.2 _ (by simp only [List.length_replicate]; omega)).2.1⟩

/-- C10: aggregation (the per-file loop producing the combined corpus, processed
names and error entries) is a deterministic pure function of the input sequence:
running it twice yields identical corpus, names and errors.  In this embedding
the loop is a pure fold, so determinism is definitional. -/
theorem C10_aggregator_deterministic (files : List PyFile) :
    (processLoop files).combined = (processLoop files).combined ∧
    (processLoop files).processed = (processLoop files).processed ∧
    (processLoop files).errors = (processLoop files).errors :=
  ⟨rfl, rfl, rfl⟩

/-- C7: when the cleaned model output fails to parse as JSON, the quiz stage
returns exactly the single fixed fallback question (correctAnswer "B", four
placeholder options); the validator returns the same single fallback whenever
zero candidates pass validation. -/
theorem C7_quiz_fallback :
    (∀ raw : List Char, jsonLoads (cleanFences raw) = none →
      quizStage raw =
        [Json.obj [("question".toList,
            Json.str ("What is the main topic of the study material?".toList)),
          ("options".toList, Json.arr [Json.str ("A) Option A".toList),
            Json.str ("B) Option B".toList), Json.str ("C) Option C".toList),
            Json.str ("D) Option D".toList)]),
          ("correctAnswer".toList, Json.str ("B".toList))]]) ∧
    (∀ candidates : List Json, candidates.filter isRecordWithFields = [] →
      validateQuiz candidates =
        [Json.obj [("question".toList,
            Json.str ("What is the main topic of the study material?".toList)),
          ("options".toList, Json.arr [Json.str ("A) Option A".toList),
            Json.str ("B) Option B".toList), Json.str ("C) Option C".toList),
            Json.str ("D) Option D".toList)]),
          ("correctAnswer".toList, Json.str ("B".toList))]]) := by
  constructor
  · intro raw h
    simp only [quizStage, h]
    rfl
  · intro candidates h
    simp only [validateQuiz, h]
    rfl

theorem C7_quiz_fallback_witness :
    quizStage ("not json".toList) =
      [Json.obj [("question".toList,
          Json.str ("What is the main topic of the study material?".toList)),
        ("options".toList, Json.arr [Json.str ("A) Option A".toList),
          Json.str ("B) Option B".toList), Json.str ("C) Option C".toList),
          Json.str ("D) Option D".toList)]),
        ("correctAnswer".toList, Json.str ("B".toList))]] ∧
    validateQuiz [Json.null] =
      [Json.obj [("question".toList,
          Json.str ("What is the main topic of the study material?".toList)),
        ("options".toList, Json.arr [Json.str ("A) Option A".toList),
          Json.str ("B) Option B".toList), Json.str ("C) Option C".toList),
          Json.str ("D) Option D".toList)]),
        ("correctAnswer".toList, Json.str ("B".toList))]] :=
  ⟨C7_quiz_fallback.1 ("not json".toList) (by rfl),
   C7_quiz_fallback.2 [Json.null] (by rfl)⟩

/-- C2 counterexample: the claim requires question, options and correctAnswer to
be non-empty before acceptance, but the code only checks key presence: an
element whose three fields are all empty strings is accepted into the returned
quiz unchanged. -/
theorem C2_counterexample :
    validateQuiz [Json.obj [("question".toList, Json.str []),
        ("options".toList, Json.str []), ("correctAnswer".toList, Json.str [])]] =
      [Json.obj [("question".toList, Json.str []),
        ("options".toList, Json.str []), ("correctAnswer".toList, Json.str [])]] := by
  rfl

/-- C2 amended: an element of the candidate list appears in the validated quiz
iff it is record-like with the question, options and correctAnswer keys present
(emptiness of the field values is not checked); every element failing the key
check is dropped. -/
theorem C2_validator_membership (cs : List Json) (q : Json) (hq : q ∈ cs) :
    q ∈ validateQuiz cs ↔ isRecordWithFields q = true := by
  unfold validateQuiz
  by_cases h : cs.filter isRecordWithFields = []
  · rw [h]
    simp only [List.isEmpty_nil, if_true]
    constructor
    · intro hmem
      have hfb : q = fallbackQuizQuestion := by
        simpa [fallbackQuiz] using hmem
      rw [hfb]
      rfl
    · intro hval
      exfalso
      have hmem : q ∈ cs.filter isRecordWithFields := List.mem_filter.mpr ⟨hq, hval⟩
      rw [h] at hmem
      cases hmem
  · have hne : (cs.filter isRecordWithFields).isEmpty = false := by
      cases hfe : cs.filter isRecordWithFields with
      | nil => exact absurd hfe h
      | cons a l => rfl
    rw [if_neg (by rw [hne]; exact Bool.false_ne_true)]
    rw [List.mem_filter]
    constructor
    · intro hp
      exact hp.2
    · intro hv
      exact ⟨hq, hv⟩

theorem C2_validator_membership_witness :
    fallbackQuizQuestion ∈ validateQuiz [fallbackQuizQuestion] :=
  (C2_validator_membership [fallbackQuizQuestion] fallbackQuizQuestion
    (by simp)).mpr (by rfl)

/-- C4 counterexample: the claim requires a non-empty content sequence even when
the strict parse succeeds on an object with an empty content array, but on parse
success the code accepts the parsed object as-is: the resulting document has an
empty content array. -/
theorem C4_counterexample :
    normalizeExplanation ("\x7b\"topic\": \"T\", \"content\": []\x7d".toList) =
      Json.obj [("topic".toList, Json.str ("T".toList)),
        ("content".toList, Json.arr [])] := by
  rfl

/-- C4 amended: the at-least-one-paragraph guarantee holds on the parse-failure
fallback path, where the synthesized document always carries a non-empty content
sequence; on parse success the parsed value is accepted as-is and may carry an
empty content array. -/
theorem C4_fallback_nonempty (raw : List Char)
    (h : jsonLoads (cleanFences raw) = none) :
    ∃ ps : List Json, ps ≠ [] ∧
      normalizeExplanation raw =
        Json.obj [("topic".toList, Json.str ("Study Material Analysis".toList)),
          ("content".toList, Json.arr ps)] := by
  refine ⟨explanationFallbackParagraphs (cleanFences raw), ?_, ?_⟩
  · unfold explanationFallbackParagraphs
    split
    · simp
    · intro hemp
      have h1 : (splitOnSub ("\n\n".toList) (cleanFences raw)).take 5 = [] :=
        List.map_eq_nil_iff.mp hemp
      have h2 := congrArg List.length h1
      simp only [List.length_take, List.length_nil] at h2
      have hpos := splitOnSub_length_pos ("\n\n".toList) (cleanFences raw)
      omega
  · simp only [normalizeExplanation, h]

theorem C4_fallback_nonempty_witness :
    ∃ ps : List Json, ps ≠ [] ∧
      normalizeExplanation ("garbage output".toList) =
        Json.obj [("topic".toList, Json.str ("Study Material Analysis".toList)),
          ("content".toList, Json.arr ps)] :=
  C4_fallback_nonempty ("garbage output".toList) (by rfl)

/-- C1 counterexample: a well-formed txt file yielding no text (empty bytes) is
extracted with no error as the empty string, yet process_files surfaces it as a
per-file error entry; and a pdf whose parsing threw a structural error yields
plain None from the extractor, not a descriptive error string. -/
theorem C1_counterexample :
    extract_text_from_file ⟨"a.txt".toList, [], PdfParse.pages []⟩ = .ok (some []) ∧
    extract_text_from_file ⟨"b.pdf".toList, [], PdfParse.structuralError⟩ = .ok none ∧
    (processLoop [⟨"a.txt".toList, [], PdfParse.pages []⟩]).errors =
      [("a.txt: Could not extract text".toList)] :=
  ⟨rfl, rfl, rfl⟩

/-- C1 amended: for an allowed file the structural-error case and the empty-text
case both reach the loop as a falsy extraction result, and the loop treats them
identically: the file is excluded from the corpus and from the processed names,
and the same per-file error entry "name: Could not extract text" is recorded for
both. -/
theorem C1_falsy_extraction_entry (st : AggState) (f : PyFile)
    (hall : allowed_file f.filename = true)
    (hfalsy : extract_text_from_file f = .ok none ∨
      extract_text_from_file f = .ok (some [])) :
    processOne st f =
      ⟨st.combined, st.processed,
        st.errors ++ [couldNotExtractEntry (secure_filename f.filename)]⟩ := by
  have hne : f.filename ≠ [] := by
    intro he
    rw [he] at hall
    exact absurd hall (by decide)
  simp only [processOne]
  rw [if_pos ⟨hne, hall⟩]
  rcases hfalsy with h | h
  · rw [h]
  · rw [h]
    simp

theorem C1_falsy_extraction_entry_witness :
    processOne ⟨[], [], []⟩ ⟨"a.txt".toList, [], PdfParse.pages []⟩ =
      ⟨([] : List Char), ([] : List (List Char)),
        [] ++ [couldNotExtractEntry (secure_filename ("a.txt".toList))]⟩ :=
  C1_falsy_extraction_entry ⟨[], [], []⟩ ⟨"a.txt".toList, [], PdfParse.pages []⟩
    (by decide) (Or.inr rfl)

/-- C9: for every file whose name contains a dot (which the allowed-file gate
guarantees before extraction is attempted), the extractor returns without
propagating an exception; without a dot the extension split itself raises, so
the gate is what makes the error branch unreachable. -/
theorem C9_no_exception_with_dot :
    (∀ f : PyFile, f.filename.contains '.' = true →
      ∃ r, extract_text_from_file f = .ok r) ∧
    (∀ name : List Char, allowed_file name = true → name.contains '.' = true) ∧
    (∃ f : PyFile, extract_text_from_file f = .error PyErr.indexError) := by
  refine ⟨?_, ?_, ?_⟩
  · intro f h
    simp only [extract_text_from_file]
    rw [if_pos h]
    by_cases h1 : lowerExt f.filename = ("txt".toList)
    · rw [if_pos h1]
      exact ⟨_, rfl⟩
    · rw [if_neg h1]
      by_cases h2 : lowerExt f.filename = ("pdf".toList)
      · rw [if_pos h2]
        cases f.pdf <;> exact ⟨_, rfl⟩
      · rw [if_neg h2]
        exact ⟨_, rfl⟩
  · intro name h
    unfold allowed_file at h
    simp only [Bool.and_eq_true] at h
    exact h.1
  · exact ⟨⟨"noext".toList, [], PdfParse.pages []⟩, rfl⟩

theorem C9_no_exception_with_dot_witness :
    ∃ r, extract_text_from_file ⟨"a.txt".toList, [104], PdfParse.pages []⟩ = .ok r :=
  C9_no_exception_with_dot.1 ⟨"a.txt".toList, [104], PdfParse.pages []⟩ (by decide)

/-- C3 counterexample: the claim says the extracted text of an oversized text
file has length exactly 5,242,880 characters, but decoding is applied after the
byte cap and can shrink the count: 5,242,881 bytes of 0xFF (all invalid UTF-8)
decode to the empty string, length 0. -/
theorem C3_counterexample :
    TXT_CAP < (List.replicate 5242881 255).length ∧
    (txtExtract (List.replicate 5242881 255)).length ≠ 5242880 := by
  constructor
  · simp only [List.length_replicate, TXT_CAP]
    omega
  · unfold txtExtract
    rw [if_pos (by simp only [List.length_replicate, TXT_CAP]; omega)]
    rw [List.take_replicate]
    rw [decodeUtf8Ignore_replicate_255]
    simp

/-- C3 amended: for a text file larger than 5 MB the extracted text has length
at most 5,242,880 (the byte cap is applied before decoding, and decoding never
yields more characters than bytes), and for a file of at most 5 MB whose bytes
are valid UTF-8 the extracted text equals the decoded content exactly. -/
theorem C3_txt_cap :
    (∀ bs : List Nat, TXT_CAP < bs.length → (txtExtract bs).length ≤ TXT_CAP) ∧
    (∀ (bs : List Nat) (s : List Char), bs.length ≤ TXT_CAP →
      decodeUtf8Strict bs = some s → txtExtract bs = s) := by
  constructor
  · intro bs h
    unfold txtExtract
    rw [if_pos h]
    have h1 := decodeUtf8Ignore_length_le (bs.take TXT_CAP)
    have h2 : (bs.take TXT_CAP).length ≤ TXT_CAP := by
      rw [List.length_take]
      omega
    omega
  · intro bs s hlen hdec
    unfold txtExtract
    rw [if_neg (by omega)]
    exact decodeUtf8Strict_agrees hdec

theorem C3_txt_cap_witness :
    (txtExtract (List.replicate 5242881 0)).length ≤ TXT_CAP ∧
    txtExtract [104, 105] = ['h', 'i'] :=
  ⟨C3_txt_cap.1 (List.replicate 5242881 0)
      (by simp only [List.length_replicate, TXT_CAP]; omega),
   C3_txt_cap.2 [104, 105] ['h', 'i'] (by decide) (by decide)⟩

theorem list_isEmpty_imp_nil {l : List Char} (h : l.isEmpty = true) : l = [] := by
  cases l with
  | nil => rfl
  | cons a t => exact Bool.noConfusion h

theorem bracket_mem_pdfNote (total processed : Nat) : '[' ∈ pdfNote total processed := by
  unfold pdfNote
  apply List.mem_append_left
  apply List.mem_append_left
  apply List.mem_append_left
  apply List.mem_append_left
  decide

theorem pdfExtract_gt_cap (ps : List (Option (List Char))) (h : 100 < ps.length) :
    pdfExtract ps = some (pdfLoop (ps.take 100) [] ++ pdfNote ps.length 100) := by
  have hmin : min ps.length PDF_PAGE_CAP = 100 := by
    simp only [PDF_PAGE_CAP]
    omega
  have hlt : 100 < ps.length := h
  simp only [pdfExtract, hmin]
  rw [if_pos hlt]
  have hmem : '[' ∈ pdfLoop (ps.take 100) [] ++ pdfNote ps.length 100 :=
    List.mem_append_right _ (bracket_mem_pdfNote ps.length 100)
  have hne := pyStrip_ne_nil_of_mem hmem (by decide)
  have hne2 : ¬ ((pyStrip (pdfLoop (ps.take 100) [] ++
      pdfNote ps.length 100)).isEmpty = true) := by
    intro hisEmpty
    exact hne (list_isEmpty_imp_nil hisEmpty)
  rw [if_neg hne2]

/-- C8: a pdf with more than 100 pages whose extraction succeeds structurally
yields text built from its first 100 pages only, with the note about processing
the first 100 of the total pages contained as a suffix; pages beyond the 100th
never contribute (extraction depends only on the first 100 pages and the page
count). -/
theorem C8_pdf_page_cap (ps : List (Option (List Char))) (h : 100 < ps.length) :
    pdfExtract ps = some (pdfLoop (ps.take 100) [] ++ pdfNote ps.length 100) ∧
    pdfNote ps.length 100 <:+ (pdfLoop (ps.take 100) [] ++ pdfNote ps.length 100) ∧
    (∀ qs : List (Option (List Char)), qs.length = ps.length →
      qs.take 100 = ps.take 100 → pdfExtract qs = pdfExtract ps) := by
  refine ⟨pdfExtract_gt_cap ps h, ⟨_, rfl⟩, ?_⟩
  intro qs hlen htake
  rw [pdfExtract_gt_cap qs (by omega), pdfExtract_gt_cap ps h, htake, hlen]

theorem C8_pdf_page_cap_witness :
    pdfExtract (List.replicate 101 (some ['x'])) =
      some (pdfLoop ((List.replicate 101 (some ['x'])).take 100) [] ++ pdfNote 101 100) := by
  have h := (C8_pdf_page_cap (List.replicate 101 (some ['x']))
    (by simp only [List.length_replicate]; omega)).1
  simpa using h

theorem pipelineBody_ne_noFilesSelected (complete : List Char → Option (List Char))
    (files : List PyFile) :
    pipelineBody complete files ≠ .failed noFilesSelectedMsg 400 := by
  intro h
  simp only [pipelineBody] at h
  repeat' split at h
  all_goals first
    | exact PipelineResult.noConfusion h
    | (injection h with h1 h2
       exact absurd h2 (by decide))
    | (injection h with h1 h2
       have hc := corpusErrorMsg_head (processLoop files).errors
       rw [h1] at hc
       exact absurd hc (by decide))

/-- C5 counterexample: with a first file of empty name followed by a named file,
the orchestrator returns Failed("No files selected") although not every file in
the list has an empty name: the code checks only files[0].filename. -/
theorem C5_counterexample :
    process_files (fun _ => none)
      (some [⟨[], [], PdfParse.pages []⟩, ⟨"a.txt".toList, [], PdfParse.pages []⟩]) =
      .failed noFilesSelectedMsg 400 ∧
    ¬ (∀ f ∈ ([⟨[], [], PdfParse.pages []⟩,
        ⟨"a.txt".toList, [], PdfParse.pages []⟩] : List PyFile), f.filename = []) := by
  constructor
  · rfl
  · intro hall
    have := hall ⟨"a.txt".toList, [], PdfParse.pages []⟩ (by simp)
    exact absurd this (by decide)

/-- C5 amended: for a non-empty upload list the orchestrator returns
Failed("No files selected") iff the FIRST file's name is empty; when the first
name is non-empty it proceeds into the pipeline body, whose first step is the
extraction loop. -/
theorem C5_first_file_gate (complete : List Char → Option (List Char))
    (f0 : PyFile) (rest : List PyFile) :
    (process_files complete (some (f0 :: rest)) = .failed noFilesSelectedMsg 400 ↔
      f0.filename = []) ∧
    (f0.filename ≠ [] →
      process_files complete (some (f0 :: rest)) = pipelineBody complete (f0 :: rest)) := by
  have hgate : ∀ _ : f0.filename ≠ [],
      process_files complete (some (f0 :: rest)) = pipelineBody complete (f0 :: rest) := by
    intro hne
    have hne2 : ¬ (f0.filename.isEmpty = true) := by
      intro hisEmpty
      exact hne (list_isEmpty_imp_nil hisEmpty)
    simp only [process_files]
    rw [if_neg hne2]
  constructor
  · constructor
    · intro h
      by_contra hne
      rw [hgate hne] at h
      exact pipelineBody_ne_noFilesSelected complete (f0 :: rest) h
    · intro h
      simp only [process_files]
      rw [if_pos (by rw [h]; rfl)]
  · exact hgate

theorem C5_first_file_gate_witness :
    process_files (fun _ => none) (some [(⟨[], [], PdfParse.pages []⟩ : PyFile)]) =
      .failed noFilesSelectedMsg 400 ∧
    process_files (fun _ => none) (some [(⟨"a.txt".toList, [], PdfParse.pages []⟩ : PyFile)]) =
      pipelineBody (fun _ => none) [⟨"a.txt".toList, [], PdfParse.pages []⟩] :=
  ⟨(C5_first_file_gate (fun _ => none) ⟨[], [], PdfParse.pages []⟩ []).1.mpr rfl,
   (C5_first_file_gate (fun _ => none) ⟨"a.txt".toList, [], PdfParse.pages []⟩ []).2
     (by decide)⟩

end StudyAI
